import Mathlib

/-!
Shallow embedding of `src/librustc_trans/metadata.rs`: the LLVM-backed
metadata loader that extracts the embedded metadata blob from rlib archives
(`get_rlib_metadata`) and from dylib object files (`get_dylib_metadata`),
together with the section-name resolver (`metadata_section_name`,
`read_metadata_section_name`), and proofs about it.

Filesystem and LLVM effects are passed in as explicit values: the result of
`ArchiveRO::open` for the archive path, and the results of
`LLVMRustCreateMemoryBufferWithContentsOfFile` and `ObjectFile::new` for the
object path. Bytes are `Nat` (values 0..255); section names are raw byte
lists, decoded by a model of `String::from_utf8`.
-/

/-- The target options this module consults: `target.options.is_like_osx`
selects the Mach-O section-naming convention in `metadata_section_name`. -/
structure TargetOptions where
  is_like_osx : Bool
deriving DecidableEq

/-- A target platform descriptor (`rustc_back::target::Target`), reduced to
the options the metadata loader reads. -/
structure Target where
  options : TargetOptions
deriving DecidableEq

/-- `pub const METADATA_FILENAME: &str = "rust.metadata.bin";` -/
def METADATA_FILENAME : String := "rust.metadata.bin"

/-- An archive member (`llvm::archive_ro::Child`): `name()` may be absent,
`data()` is the member's stored bytes. -/
structure ArchiveChild where
  name : Option String
  data : List Nat
deriving DecidableEq

/-- An opened archive (`llvm::archive_ro::ArchiveRO`): `ar.iter()` yields a
sequence of fallible member entries in archive order; an entry whose header
fails to parse is `none` (the source's `s.ok() == None` case). -/
structure ArchiveRO where
  children : List (Option ArchiveChild)
deriving DecidableEq

/-- `LlvmMetadataLoader::get_rlib_metadata`. The target argument is unused
(`_: &Target` in the source). The effect `ArchiveRO::open(filename)` is the
explicit argument `openResult`; on open failure the error is formatted with
path and underlying reason, then the members that parsed are scanned for the
first one named `METADATA_FILENAME`, whose data is returned; otherwise the
not-found error is formatted with the path. -/
def get_rlib_metadata (_target : Target) (filename : String)
    (openResult : Except String ArchiveRO) : Except String (List Nat) :=
  match openResult with
  | .error e =>
      .error ("failed to read rlib metadata in '" ++ filename ++ "': " ++ e)
  | .ok ar =>
      match (ar.children.filterMap id).find?
          (fun sect => sect.name == some METADATA_FILENAME) with
      | some s => .ok s.data
      | none => .error ("failed to read rlib metadata: '" ++ filename ++ "'")

/-- An object-file section as seen through the LLVM section iterator:
`nameBytes` are the raw bytes from `LLVMRustGetSectionName`, `contents` the
bytes designated by `LLVMGetSectionContents`/`LLVMGetSectionSize`. -/
structure ObjSection where
  nameBytes : List Nat
  contents : List Nat
deriving DecidableEq

/-- An object file (`llvm::ObjectFile`): its sections in file order, the
order in which `mk_section_iter`/`LLVMMoveToNextSection` visits them. -/
structure ObjectFile where
  sections : List ObjSection
deriving DecidableEq

/-- Model of Rust's `String::from_utf8` byte-level decoding (strict UTF-8:
no overlong forms, no surrogates, max scalar value 0x10FFFF), producing the
decoded characters or failing. -/
def utf8Decode : List Nat → Option (List Char)
  | [] => some []
  | b0 :: bs =>
    if b0 < 0x80 then
      (utf8Decode bs).map (fun cs => Char.ofNat b0 :: cs)
    else if b0 < 0xC2 then
      none
    else if b0 ≤ 0xDF then
      match bs with
      | b1 :: bs1 =>
          if 0x80 ≤ b1 ∧ b1 ≤ 0xBF then
            (utf8Decode bs1).map
              (fun cs => Char.ofNat ((b0 - 0xC0) * 0x40 + (b1 - 0x80)) :: cs)
          else none
      | [] => none
    else if b0 ≤ 0xEF then
      match bs with
      | b1 :: b2 :: bs2 =>
          if (if b0 = 0xE0 then 0xA0 else 0x80) ≤ b1 ∧
              b1 ≤ (if b0 = 0xED then 0x9F else 0xBF) ∧
              0x80 ≤ b2 ∧ b2 ≤ 0xBF then
            (utf8Decode bs2).map
              (fun cs =>
                Char.ofNat ((b0 - 0xE0) * 0x1000 + (b1 - 0x80) * 0x40 +
                  (b2 - 0x80)) :: cs)
          else none
      | _ => none
    else if b0 ≤ 0xF4 then
      match bs with
      | b1 :: b2 :: b3 :: bs3 =>
          if (if b0 = 0xF0 then 0x90 else 0x80) ≤ b1 ∧
              b1 ≤ (if b0 = 0xF4 then 0x8F else 0xBF) ∧
              0x80 ≤ b2 ∧ b2 ≤ 0xBF ∧ 0x80 ≤ b3 ∧ b3 ≤ 0xBF then
            (utf8Decode bs3).map
              (fun cs =>
                Char.ofNat ((b0 - 0xF0) * 0x40000 + (b1 - 0x80) * 0x1000 +
                  (b2 - 0x80) * 0x40 + (b3 - 0x80)) :: cs)
          else none
      | _ => none
    else none

/-- `String::from_utf8(name)` on the raw section-name bytes. -/
def string_from_utf8 (bytes : List Nat) : Option String :=
  (utf8Decode bytes).map (fun cs => ⟨cs⟩)

/-- `pub fn metadata_section_name(target: &Target) -> &'static str`: the name
a metadata producer embeds, segment-qualified on Mach-O-like targets. -/
def metadata_section_name (target : Target) : String :=
  if target.options.is_like_osx then "__DATA,.rustc" else ".rustc"

/-- `fn read_metadata_section_name(_target: &Target) -> &'static str`: the
name the reader searches for, a constant independent of the target. -/
def read_metadata_section_name (_target : Target) : String :=
  ".rustc"

/-- Outcome of the section scan: `ok` is `Ok(buf)`, `err` is `Err(String)`,
and `panicked` models the process abort of
`String::from_utf8(name).unwrap()` on a section name that is not valid
UTF-8. -/
inductive ScanResult where
  | ok (bytes : List Nat)
  | err (msg : String)
  | panicked

/-- The `while !LLVMIsSectionIteratorAtEnd` loop of `search_meta_section`,
over the sections not yet visited: decode the current section's name
(aborting on invalid UTF-8), return its contents if the name equals
`read_metadata_section_name target`, otherwise advance; when the iterator is
at the end, return the not-found error formatted with the path. -/
def search_meta_section_loop (target : Target) (filename : String) :
    List ObjSection → ScanResult
  | [] => .err ("metadata not found: '" ++ filename ++ "'")
  | s :: rest =>
    match string_from_utf8 s.nameBytes with
    | none => .panicked
    | some name =>
        if read_metadata_section_name target = name then .ok s.contents
        else search_meta_section_loop target filename rest

/-- `fn search_meta_section`: scan the object file's sections in file order. -/
def search_meta_section (of : ObjectFile) (target : Target)
    (filename : String) : ScanResult :=
  search_meta_section_loop target filename of.sections

/-- `LlvmMetadataLoader::get_dylib_metadata`. The two effects are the
explicit argument `mb`: `none` models
`LLVMRustCreateMemoryBufferWithContentsOfFile` returning null (file could
not be read), `some none` models `ObjectFile::new` returning `None` (read
succeeded but the buffer is not an object file), and `some (some of)` the
successfully parsed object file handed to `search_meta_section`. -/
def get_dylib_metadata (target : Target) (filename : String)
    (mb : Option (Option ObjectFile)) : ScanResult :=
  match mb with
  | none => .err ("error reading library: '" ++ filename ++ "'")
  | some none =>
      .err ("provided path not an object file: '" ++ filename ++ "'")
  | some (some of) => search_meta_section of target filename

/-- Instrumented variant of the section-scan loop that also counts the
number of `LLVMMoveToNextSection` cursor advances performed: one advance per
inspected non-matching section, none once a match or a decode failure is
reached. -/
def search_meta_section_steps (target : Target) (filename : String) :
    List ObjSection → Nat × ScanResult
  | [] => (0, .err ("metadata not found: '" ++ filename ++ "'"))
  | s :: rest =>
    match string_from_utf8 s.nameBytes with
    | none => (0, .panicked)
    | some name =>
        if read_metadata_section_name target = name then (0, .ok s.contents)
        else
          let r := search_meta_section_steps target filename rest
          (r.1 + 1, r.2)

/-! ### Helper lemmas -/

/-- If some element of `l` satisfies `p`, then `l` splits at the first such
element, and `List.find?` returns exactly that element. -/
theorem find_first_split {α : Type} (p : α → Bool) (l : List α)
    (h : ∃ a ∈ l, p a = true) :
    ∃ pre c post, l = pre ++ c :: post ∧ (∀ e ∈ pre, p e = false) ∧
      p c = true ∧ l.find? p = some c := by
  induction l with
  | nil => rcases h with ⟨a, ha, _⟩; cases ha
  | cons x xs ih =>
    by_cases hx : p x = true
    · exact ⟨[], x, xs, rfl, by simp, hx, by simp [List.find?, hx]⟩
    · have hx' : p x = false := by
        cases hpx : p x
        · rfl
        · exact absurd hpx hx
      have h' : ∃ a ∈ xs, p a = true := by
        rcases h with ⟨a, ha, hpa⟩
        rcases List.mem_cons.mp ha with rfl | hmem
        · exact absurd hpa hx
        · exact ⟨a, hmem, hpa⟩
      rcases ih h' with ⟨pre, c, post, hsplit, hpre, hc, hfind⟩
      refine ⟨x :: pre, c, post, by simp [hsplit], ?_, hc, ?_⟩
      · intro e he
        rcases List.mem_cons.mp he with rfl | hmem
        · exact hx'
        · exact hpre e hmem
      · simp [List.find?, hx', hfind]

/-- `List.find?` ignores an element that fails the predicate, wherever it
sits in the list. -/
theorem find_skip_false {α : Type} (p : α → Bool) (l₁ l₂ : List α) (x : α)
    (hx : p x = false) :
    (l₁ ++ x :: l₂).find? p = (l₁ ++ l₂).find? p := by
  induction l₁ with
  | nil => simp [List.find?, hx]
  | cons y ys ih =>
    cases hy : p y <;> simp [List.find?, hy, ih]

/-- The section-scan loop does not depend on the target: the searched name
`read_metadata_section_name` is a target-independent constant. -/
theorem search_loop_target_irrel (t₁ t₂ : Target) (fn : String)
    (l : List ObjSection) :
    search_meta_section_loop t₁ fn l = search_meta_section_loop t₂ fn l := by
  induction l with
  | nil => rfl
  | cons s rest ih =>
    simp only [search_meta_section_loop, read_metadata_section_name]
    cases string_from_utf8 s.nameBytes <;> simp [ih]

/-- The scan returns the contents of the first section whose decoded name is
`".rustc"`, provided the earlier sections decode and do not match. -/
theorem search_loop_found (t : Target) (fn : String) (pre : List ObjSection)
    (s : ObjSection) (post : List ObjSection)
    (hpre : ∀ e ∈ pre, (string_from_utf8 e.nameBytes).isSome = true ∧
      string_from_utf8 e.nameBytes ≠ some ".rustc")
    (hs : string_from_utf8 s.nameBytes = some ".rustc") :
    search_meta_section_loop t fn (pre ++ s :: post) = ScanResult.ok s.contents := by
  induction pre with
  | nil =>
    simp [search_meta_section_loop, hs, read_metadata_section_name]
  | cons e es ih =>
    obtain ⟨hsome, hne⟩ := hpre e (by simp)
    obtain ⟨n, hn⟩ := Option.isSome_iff_exists.mp hsome
    have hnne : (".rustc" : String) ≠ n := by
      intro hEq
      exact hne (hEq ▸ hn)
    simp only [List.cons_append, search_meta_section_loop, hn,
      read_metadata_section_name]
    rw [if_neg hnne]
    exact ih (fun e' he' => hpre e' (by simp [he']))

/-- If every section decodes and none matches, the scan ends with the
not-found error mentioning the path. -/
theorem search_loop_notfound (t : Target) (fn : String) (l : List ObjSection)
    (h : ∀ e ∈ l, (string_from_utf8 e.nameBytes).isSome = true ∧
      string_from_utf8 e.nameBytes ≠ some ".rustc") :
    search_meta_section_loop t fn l =
      ScanResult.err ("metadata not found: '" ++ fn ++ "'") := by
  induction l with
  | nil => rfl
  | cons e es ih =>
    obtain ⟨hsome, hne⟩ := h e (by simp)
    obtain ⟨n, hn⟩ := Option.isSome_iff_exists.mp hsome
    have hnne : (".rustc" : String) ≠ n := by
      intro hEq
      exact hne (hEq ▸ hn)
    simp only [search_meta_section_loop, hn, read_metadata_section_name]
    rw [if_neg hnne]
    exact ih (fun e' he' => h e' (by simp [he']))

/-- The instrumented scan computes the same result as the plain loop. -/
theorem search_steps_snd (t : Target) (fn : String) (l : List ObjSection) :
    (search_meta_section_steps t fn l).2 = search_meta_section_loop t fn l := by
  induction l with
  | nil => rfl
  | cons s rest ih =>
    simp only [search_meta_section_steps, search_meta_section_loop]
    cases string_from_utf8 s.nameBytes with
    | none => rfl
    | some n =>
      by_cases h : read_metadata_section_name t = n <;> simp [h, ih]

/-- The instrumented scan advances the cursor at most once per section. -/
theorem search_steps_le (t : Target) (fn : String) (l : List ObjSection) :
    (search_meta_section_steps t fn l).1 ≤ l.length := by
  induction l with
  | nil => exact Nat.le_refl 0
  | cons s rest ih =>
    simp only [search_meta_section_steps, List.length_cons]
    cases string_from_utf8 s.nameBytes with
    | none => exact Nat.zero_le _
    | some n =>
      by_cases h : read_metadata_section_name t = n
      · simp [h]
      · simp only [if_neg h]
        exact Nat.succ_le_succ ih

/-! ### Claim theorems -/

/-- C1: for every valid archive containing a member named
`METADATA_FILENAME`, `get_rlib_metadata` succeeds and returns exactly the
stored content of the first such member in archive order. -/
theorem rlib_metadata_first_member (t : Target) (fn : String) (ar : ArchiveRO)
    (h : ∃ c ∈ ar.children.filterMap id, c.name = some METADATA_FILENAME) :
    ∃ pre c post, ar.children.filterMap id = pre ++ c :: post ∧
      (∀ e ∈ pre, e.name ≠ some METADATA_FILENAME) ∧
      c.name = some METADATA_FILENAME ∧
      get_rlib_metadata t fn (Except.ok ar) = Except.ok c.data := by
  have h' : ∃ c ∈ ar.children.filterMap id,
      (fun sect => sect.name == some METADATA_FILENAME) c = true := by
    rcases h with ⟨c, hc, hn⟩
    exact ⟨c, hc, by simp [hn]⟩
  rcases find_first_split _ _ h' with ⟨pre, c, post, hsplit, hpre, hc, hfind⟩
  refine ⟨pre, c, post, hsplit, ?_, ?_, ?_⟩
  · intro e he hEq
    have := hpre e he
    simp [hEq] at this
  · simpa using hc
  · simp [get_rlib_metadata, hfind]

/-- C1 witness: a concrete archive with a padding member, a corrupt member
and the metadata member. -/
theorem rlib_metadata_first_member_witness :
    ∃ pre c post,
      ((ArchiveRO.mk [some ⟨some "foo.o", [9]⟩, none,
          some ⟨some "rust.metadata.bin", [1, 2, 3]⟩]).children.filterMap id) =
        pre ++ c :: post ∧
      (∀ e ∈ pre, e.name ≠ some METADATA_FILENAME) ∧
      c.name = some METADATA_FILENAME ∧
      get_rlib_metadata ⟨⟨false⟩⟩ "lib.rlib"
        (Except.ok (ArchiveRO.mk [some ⟨some "foo.o", [9]⟩, none,
          some ⟨some "rust.metadata.bin", [1, 2, 3]⟩])) = Except.ok c.data :=
  rlib_metadata_first_member ⟨⟨false⟩⟩ "lib.rlib" _
    ⟨⟨some "rust.metadata.bin", [1, 2, 3]⟩, by simp [List.filterMap], rfl⟩

/-- C2: for every valid object file (all section names decode) containing a
section whose decoded name is `".rustc"`, `get_dylib_metadata` succeeds for
every target and returns the content of the first such section in file
order. -/
theorem dylib_metadata_first_section (t : Target) (fn : String)
    (of : ObjectFile)
    (hvalid : ∀ s ∈ of.sections, (string_from_utf8 s.nameBytes).isSome = true)
    (h : ∃ s ∈ of.sections, string_from_utf8 s.nameBytes = some ".rustc") :
    ∃ pre s post, of.sections = pre ++ s :: post ∧
      (∀ e ∈ pre, string_from_utf8 e.nameBytes ≠ some ".rustc") ∧
      string_from_utf8 s.nameBytes = some ".rustc" ∧
      get_dylib_metadata t fn (some (some of)) = ScanResult.ok s.contents := by
  have h' : ∃ s ∈ of.sections,
      (fun s => string_from_utf8 s.nameBytes == some ".rustc") s = true := by
    rcases h with ⟨s, hs, hn⟩
    exact ⟨s, hs, by simp [hn]⟩
  rcases find_first_split _ _ h' with ⟨pre, s, post, hsplit, hpre, hs, _⟩
  have hsr : string_from_utf8 s.nameBytes = some ".rustc" := by simpa using hs
  have hpre' : ∀ e ∈ pre, (string_from_utf8 e.nameBytes).isSome = true ∧
      string_from_utf8 e.nameBytes ≠ some ".rustc" := by
    intro e he
    refine ⟨hvalid e ?_, ?_⟩
    · rw [hsplit]
      exact List.mem_append_left _ he
    · intro hEq
      have := hpre e he
      simp [hEq] at this
  refine ⟨pre, s, post, hsplit, fun e he => (hpre' e he).2, hsr, ?_⟩
  show search_meta_section of t fn = ScanResult.ok s.contents
  rw [search_meta_section, hsplit]
  exact search_loop_found t fn pre s post hpre' hsr

/-- C2 witness: a concrete object file with a `.text` section followed by
the `.rustc` section. -/
theorem dylib_metadata_first_section_witness :
    ∃ pre s post,
      (ObjectFile.mk [⟨[46, 116, 101, 120, 116], [7]⟩,
        ⟨[46, 114, 117, 115, 116, 99], [170, 187]⟩]).sections =
        pre ++ s :: post ∧
      (∀ e ∈ pre, string_from_utf8 e.nameBytes ≠ some ".rustc") ∧
      string_from_utf8 s.nameBytes = some ".rustc" ∧
      get_dylib_metadata ⟨⟨true⟩⟩ "lib.so"
        (some (some (ObjectFile.mk [⟨[46, 116, 101, 120, 116], [7]⟩,
          ⟨[46, 114, 117, 115, 116, 99], [170, 187]⟩]))) =
        ScanResult.ok s.contents :=
  dylib_metadata_first_section ⟨⟨true⟩⟩ "lib.so" _
    (by decide)
    ⟨⟨[46, 114, 117, 115, 116, 99], [170, 187]⟩, by decide, by decide⟩

/-- C3: the search-name function returns the constant `".rustc"` for every
target, while the writer-name function returns `"__DATA,.rustc"` exactly on
Mach-O-like targets and `".rustc"` otherwise. -/
theorem section_name_resolver_spec (t : Target) :
    read_metadata_section_name t = ".rustc" ∧
    (metadata_section_name t = "__DATA,.rustc" ↔
      t.options.is_like_osx = true) ∧
    (metadata_section_name t = ".rustc" ↔ t.options.is_like_osx = false) := by
  refine ⟨rfl, ?_, ?_⟩ <;>
    cases h : t.options.is_like_osx <;>
      simp [metadata_section_name, h]

/-- C4: in `get_dylib_metadata` the read-failure error, the
not-an-object-file error and the post-scan not-found error are produced in
their respective cases and are pairwise distinct messages. -/
theorem dylib_error_classes_distinct (t : Target) (fn : String) :
    get_dylib_metadata t fn none =
      ScanResult.err ("error reading library: '" ++ fn ++ "'") ∧
    get_dylib_metadata t fn (some none) =
      ScanResult.err ("provided path not an object file: '" ++ fn ++ "'") ∧
    get_dylib_metadata t fn (some (some ⟨[]⟩)) =
      ScanResult.err ("metadata not found: '" ++ fn ++ "'") ∧
    ("error reading library: '" ++ fn ++ "'" ≠
      "provided path not an object file: '" ++ fn ++ "'") ∧
    ("error reading library: '" ++ fn ++ "'" ≠
      "metadata not found: '" ++ fn ++ "'") ∧
    ("provided path not an object file: '" ++ fn ++ "'" ≠
      "metadata not found: '" ++ fn ++ "'") := by
  refine ⟨rfl, rfl, rfl, ?_, ?_, ?_⟩ <;>
  · intro hEq
    have hlen := congrArg String.length hEq
    simp only [String.length_append] at hlen
    have h1 : ("error reading library: '" : String).length = 24 := rfl
    have h2 : ("provided path not an object file: '" : String).length = 35 := rfl
    have h3 : ("metadata not found: '" : String).length = 21 := rfl
    omega

/-- C9: neither operation depends on the target: for any two targets and the
same file effects, `get_rlib_metadata` and `get_dylib_metadata` return
identical results. -/
theorem target_independence (t₁ t₂ : Target) (fn : String)
    (openResult : Except String ArchiveRO) (mb : Option (Option ObjectFile)) :
    get_rlib_metadata t₁ fn openResult = get_rlib_metadata t₂ fn openResult ∧
    get_dylib_metadata t₁ fn mb = get_dylib_metadata t₂ fn mb := by
  refine ⟨rfl, ?_⟩
  cases mb with
  | none => rfl
  | some o =>
    cases o with
    | none => rfl
    | some of =>
      show search_meta_section of t₁ fn = search_meta_section of t₂ fn
      exact search_loop_target_irrel t₁ t₂ fn of.sections

/-- C5 counterexample: both not-found error messages contain only the path;
neither contains the name that was searched for (`METADATA_FILENAME` in the
archive case, `".rustc"` in the object case). -/
theorem notfound_message_omits_name_cex :
    get_rlib_metadata ⟨⟨false⟩⟩ "lib.rlib" (Except.ok ⟨[]⟩) =
      Except.error "failed to read rlib metadata: 'lib.rlib'" ∧
    ¬ (METADATA_FILENAME.data <:+:
        ("failed to read rlib metadata: 'lib.rlib'" : String).data) ∧
    get_dylib_metadata ⟨⟨false⟩⟩ "lib.so" (some (some ⟨[]⟩)) =
      ScanResult.err "metadata not found: 'lib.so'" ∧
    ¬ ((".rustc" : String).data <:+:
        ("metadata not found: 'lib.so'" : String).data) :=
  ⟨rfl, by decide, rfl, by decide⟩

/-- C5 amended: when the container parses but the member/section is absent,
the error message embeds the file path (but not the searched-for name): the
archive message is `failed to read rlib metadata: '<path>'` and the object
message is `metadata not found: '<path>'`. -/
theorem notfound_messages_include_path (t : Target) (fn : String)
    (ar : ArchiveRO) (of : ObjectFile)
    (har : ∀ c ∈ ar.children.filterMap id, c.name ≠ some METADATA_FILENAME)
    (hof : ∀ s ∈ of.sections, (string_from_utf8 s.nameBytes).isSome = true ∧
      string_from_utf8 s.nameBytes ≠ some ".rustc") :
    get_rlib_metadata t fn (Except.ok ar) =
      Except.error ("failed to read rlib metadata: '" ++ fn ++ "'") ∧
    get_dylib_metadata t fn (some (some of)) =
      ScanResult.err ("metadata not found: '" ++ fn ++ "'") ∧
    fn.data <:+: ("failed to read rlib metadata: '" ++ fn ++ "'" : String).data ∧
    fn.data <:+: ("metadata not found: '" ++ fn ++ "'" : String).data := by
  refine ⟨?_, ?_, ?_, ?_⟩
  · have hnone : (ar.children.filterMap id).find?
        (fun sect => sect.name == some METADATA_FILENAME) = none := by
      rw [List.find?_eq_none]
      intro c hc
      simpa using har c hc
    simp [get_rlib_metadata, hnone]
  · show search_meta_section of t fn =
      ScanResult.err ("metadata not found: '" ++ fn ++ "'")
    exact search_loop_notfound t fn of.sections hof
  · exact ⟨("failed to read rlib metadata: '" : String).data,
      ("'" : String).data, by simp⟩
  · exact ⟨("metadata not found: '" : String).data,
      ("'" : String).data, by simp⟩

/-- C5 amended witness: an archive and an object file with no metadata, at a
concrete path. -/
theorem notfound_messages_include_path_witness :
    get_rlib_metadata ⟨⟨false⟩⟩ "lib.rlib"
      (Except.ok (ArchiveRO.mk [some ⟨some "foo.o", [9]⟩])) =
      Except.error ("failed to read rlib metadata: '" ++ "lib.rlib" ++ "'") ∧
    get_dylib_metadata ⟨⟨false⟩⟩ "lib.rlib"
      (some (some (ObjectFile.mk [⟨[46, 116, 101, 120, 116], [7]⟩]))) =
      ScanResult.err ("metadata not found: '" ++ "lib.rlib" ++ "'") ∧
    ("lib.rlib" : String).data <:+:
      ("failed to read rlib metadata: '" ++ "lib.rlib" ++ "'" : String).data ∧
    ("lib.rlib" : String).data <:+:
      ("metadata not found: '" ++ "lib.rlib" ++ "'" : String).data :=
  notfound_messages_include_path ⟨⟨false⟩⟩ "lib.rlib"
    (ArchiveRO.mk [some ⟨some "foo.o", [9]⟩])
    (ObjectFile.mk [⟨[46, 116, 101, 120, 116], [7]⟩])
    (by decide) (by decide)

/-- C6: a section name that fails UTF-8 decoding makes the whole object scan
abort loudly (the `unwrap` panic), which is neither a silent skip producing a
success nor any returned error value; sections before it that decode and do
not match are scanned normally. -/
theorem utf8_decode_failure_is_loud (t : Target) (fn : String)
    (pre : List ObjSection) (s : ObjSection) (post : List ObjSection)
    (hpre : ∀ e ∈ pre, (string_from_utf8 e.nameBytes).isSome = true ∧
      string_from_utf8 e.nameBytes ≠ some ".rustc")
    (hs : string_from_utf8 s.nameBytes = none) :
    get_dylib_metadata t fn (some (some ⟨pre ++ s :: post⟩)) =
      ScanResult.panicked ∧
    (∀ b, ScanResult.panicked ≠ ScanResult.ok b) ∧
    (∀ m, ScanResult.panicked ≠ ScanResult.err m) := by
  refine ⟨?_, ?_, ?_⟩
  case refine_2 =>
    intro b h
    cases h
  case refine_3 =>
    intro m h
    cases h
  show search_meta_section_loop t fn (pre ++ s :: post) = ScanResult.panicked
  induction pre with
  | nil => simp [search_meta_section_loop, hs]
  | cons e es ih =>
    obtain ⟨hsome, hne⟩ := hpre e (by simp)
    obtain ⟨n, hn⟩ := Option.isSome_iff_exists.mp hsome
    have hnne : (".rustc" : String) ≠ n := by
      intro hEq
      exact hne (hEq ▸ hn)
    simp only [List.cons_append, search_meta_section_loop, hn,
      read_metadata_section_name]
    rw [if_neg hnne]
    exact ih (fun e' he' => hpre e' (by simp [he']))

/-- C6 witness: a single section whose name byte `0xFF` is not valid UTF-8. -/
theorem utf8_decode_failure_is_loud_witness :
    get_dylib_metadata ⟨⟨false⟩⟩ "lib.so"
      (some (some ⟨[] ++ (⟨[255], []⟩ : ObjSection) :: []⟩)) =
      ScanResult.panicked ∧
    (∀ b, ScanResult.panicked ≠ ScanResult.ok b) ∧
    (∀ m, ScanResult.panicked ≠ ScanResult.err m) :=
  utf8_decode_failure_is_loud ⟨⟨false⟩⟩ "lib.so" [] ⟨[255], []⟩ []
    (by decide) (by decide)

/-- C7: the archive scan is insensitive to malformed members: scanning any
member list gives the same result as scanning only its well-formed members,
inserting a member whose header fails to parse anywhere changes nothing, and
a member without a name is never matched. -/
theorem rlib_scan_skips_malformed (t : Target) (fn : String)
    (children pre post : List (Option ArchiveChild)) (d : List Nat) :
    get_rlib_metadata t fn (Except.ok ⟨children⟩) =
      get_rlib_metadata t fn (Except.ok ⟨(children.filterMap id).map some⟩) ∧
    get_rlib_metadata t fn (Except.ok ⟨pre ++ none :: post⟩) =
      get_rlib_metadata t fn (Except.ok ⟨pre ++ post⟩) ∧
    get_rlib_metadata t fn (Except.ok ⟨pre ++ some ⟨none, d⟩ :: post⟩) =
      get_rlib_metadata t fn (Except.ok ⟨pre ++ post⟩) := by
  refine ⟨?_, ?_, ?_⟩
  · simp [get_rlib_metadata, List.filterMap_map]
  · simp [get_rlib_metadata, List.filterMap_append]
  · simp only [get_rlib_metadata, List.filterMap_append, List.filterMap_cons,
      id]
    rw [find_skip_false _ _ _ (⟨none, d⟩ : ArchiveChild) rfl]

/-- C8: the section scan is a single forward pass: the instrumented loop
computes the same result as `search_meta_section`, advances the cursor at
most once per section, and on a fully-decodable section list it either
returns the first match after exactly one advance per preceding
non-matching section, or advances past every section and returns the
not-found error. -/
theorem section_scan_terminates (t : Target) (fn : String)
    (sections : List ObjSection)
    (hvalid : ∀ s ∈ sections, (string_from_utf8 s.nameBytes).isSome = true) :
    (search_meta_section_steps t fn sections).2 =
      search_meta_section ⟨sections⟩ t fn ∧
    (search_meta_section_steps t fn sections).1 ≤ sections.length ∧
    ((∃ pre s post, sections = pre ++ s :: post ∧
        (search_meta_section_steps t fn sections).1 = pre.length ∧
        (∀ e ∈ pre, string_from_utf8 e.nameBytes ≠ some ".rustc") ∧
        string_from_utf8 s.nameBytes = some ".rustc" ∧
        (search_meta_section_steps t fn sections).2 =
          ScanResult.ok s.contents) ∨
      ((search_meta_section_steps t fn sections).1 = sections.length ∧
        (∀ e ∈ sections, string_from_utf8 e.nameBytes ≠ some ".rustc") ∧
        (search_meta_section_steps t fn sections).2 =
          ScanResult.err ("metadata not found: '" ++ fn ++ "'"))) := by
  refine ⟨search_steps_snd t fn sections, search_steps_le t fn sections, ?_⟩
  induction sections with
  | nil => right; exact ⟨rfl, by simp, rfl⟩
  | cons s rest ih =>
    obtain ⟨n, hn⟩ := Option.isSome_iff_exists.mp (hvalid s (by simp))
    by_cases hmatch : (".rustc" : String) = n
    · left
      refine ⟨[], s, rest, rfl, ?_, by simp, hmatch ▸ hn, ?_⟩ <;>
        simp [search_meta_section_steps, hn, read_metadata_section_name,
          if_pos hmatch]
    · have hstep : search_meta_section_steps t fn (s :: rest) =
          ((search_meta_section_steps t fn rest).1 + 1,
            (search_meta_section_steps t fn rest).2) := by
        simp only [search_meta_section_steps, hn, read_metadata_section_name]
        rw [if_neg hmatch]
      have hsne : string_from_utf8 s.nameBytes ≠ some ".rustc" := by
        rw [hn]
        intro hEq
        exact hmatch (Option.some_injective _ hEq).symm
      rcases ih (fun e he => hvalid e (by simp [he])) with
        ⟨p, x, q, hsplit, hfst, hp, hx, hsnd⟩ | ⟨hfst, hall, hsnd⟩
      · left
        refine ⟨s :: p, x, q, by simp [hsplit], ?_, ?_, hx, ?_⟩
        · rw [hstep]
          simpa using hfst
        · intro e he
          rcases List.mem_cons.mp he with rfl | hmem
          · exact hsne
          · exact hp e hmem
        · rw [hstep]
          exact hsnd
      · right
        refine ⟨?_, ?_, ?_⟩
        · rw [hstep]
          simpa using hfst
        · intro e he
          rcases List.mem_cons.mp he with rfl | hmem
          · exact hsne
          · exact hall e hmem
        · rw [hstep]
          exact hsnd

/-- C8 witness: a two-section object file whose second section is the
metadata section. -/
theorem section_scan_terminates_witness :
    (search_meta_section_steps ⟨⟨false⟩⟩ "lib.so"
      [⟨[46, 116, 101, 120, 116], [7]⟩, ⟨[46, 114, 117, 115, 116, 99], [1]⟩]).2 =
      search_meta_section
        ⟨[⟨[46, 116, 101, 120, 116], [7]⟩,
          ⟨[46, 114, 117, 115, 116, 99], [1]⟩]⟩ ⟨⟨false⟩⟩ "lib.so" ∧
    (search_meta_section_steps ⟨⟨false⟩⟩ "lib.so"
      [⟨[46, 116, 101, 120, 116], [7]⟩, ⟨[46, 114, 117, 115, 116, 99], [1]⟩]).1 ≤
      ([⟨[46, 116, 101, 120, 116], [7]⟩,
        ⟨[46, 114, 117, 115, 116, 99], [1]⟩] : List ObjSection).length ∧
    ((∃ pre s post,
        ([⟨[46, 116, 101, 120, 116], [7]⟩,
          ⟨[46, 114, 117, 115, 116, 99], [1]⟩] : List ObjSection) =
          pre ++ s :: post ∧
        (search_meta_section_steps ⟨⟨false⟩⟩ "lib.so"
          [⟨[46, 116, 101, 120, 116], [7]⟩,
            ⟨[46, 114, 117, 115, 116, 99], [1]⟩]).1 = pre.length ∧
        (∀ e ∈ pre, string_from_utf8 e.nameBytes ≠ some ".rustc") ∧
        string_from_utf8 s.nameBytes = some ".rustc" ∧
        (search_meta_section_steps ⟨⟨false⟩⟩ "lib.so"
          [⟨[46, 116, 101, 120, 116], [7]⟩,
            ⟨[46, 114, 117, 115, 116, 99], [1]⟩]).2 =
          ScanResult.ok s.contents) ∨
      ((search_meta_section_steps ⟨⟨false⟩⟩ "lib.so"
          [⟨[46, 116, 101, 120, 116], [7]⟩,
            ⟨[46, 114, 117, 115, 116, 99], [1]⟩]).1 =
        ([⟨[46, 116, 101, 120, 116], [7]⟩,
          ⟨[46, 114, 117, 115, 116, 99], [1]⟩] : List ObjSection).length ∧
        (∀ e ∈ ([⟨[46, 116, 101, 120, 116], [7]⟩,
          ⟨[46, 114, 117, 115, 116, 99], [1]⟩] : List ObjSection),
          string_from_utf8 e.nameBytes ≠ some ".rustc") ∧
        (search_meta_section_steps ⟨⟨false⟩⟩ "lib.so"
          [⟨[46, 116, 101, 120, 116], [7]⟩,
            ⟨[46, 114, 117, 115, 116, 99], [1]⟩]).2 =
          ScanResult.err ("metadata not found: '" ++ "lib.so" ++ "'"))) :=
  section_scan_terminates ⟨⟨false⟩⟩ "lib.so"
    [⟨[46, 116, 101, 120, 116], [7]⟩, ⟨[46, 114, 117, 115, 116, 99], [1]⟩]
    (by decide)

/-- C10: even on a Mach-O-like target, an object file whose sections all
decode but none of which is named `".rustc"` makes `get_dylib_metadata` fail
with the not-found error, even when a section carries the writer-side name
`metadata_section_name ⟨⟨true⟩⟩ = "__DATA,.rustc"`: the consumer never
searches for the segment-qualified writer name. -/
theorem writer_name_not_searched (t : Target) (fn : String) (of : ObjectFile)
    (_hqual : ∃ s ∈ of.sections,
      string_from_utf8 s.nameBytes = some (metadata_section_name ⟨⟨true⟩⟩))
    (hno : ∀ s ∈ of.sections, (string_from_utf8 s.nameBytes).isSome = true ∧
      string_from_utf8 s.nameBytes ≠ some ".rustc") :
    get_dylib_metadata t fn (some (some of)) =
      ScanResult.err ("metadata not found: '" ++ fn ++ "'") := by
  show search_meta_section of t fn =
    ScanResult.err ("metadata not found: '" ++ fn ++ "'")
  exact search_loop_notfound t fn of.sections hno

/-- C10 witness: a Mach-O-like target and an object file whose only section
is named `__DATA,.rustc`. -/
theorem writer_name_not_searched_witness :
    get_dylib_metadata ⟨⟨true⟩⟩ "lib.dylib"
      (some (some (ObjectFile.mk
        [⟨[95, 95, 68, 65, 84, 65, 44, 46, 114, 117, 115, 116, 99], [5]⟩]))) =
      ScanResult.err ("metadata not found: '" ++ "lib.dylib" ++ "'") :=
  writer_name_not_searched ⟨⟨true⟩⟩ "lib.dylib"
    (ObjectFile.mk
      [⟨[95, 95, 68, 65, 84, 65, 44, 46, 114, 117, 115, 116, 99], [5]⟩])
    ⟨⟨[95, 95, 68, 65, 84, 65, 44, 46, 114, 117, 115, 116, 99], [5]⟩,
      by decide, by decide⟩
    (by decide)
